import Mathlib

/-!
Shallow embedding of the Abab BFT consensus engine of this repository
(src/ethcore/src/engines/abab/message.rs and src/ethcore/src/engines/abab/mod.rs).

Hash values (H256), signatures (H520) and addresses are opaque quantities on
which the engine only performs equality tests and table lookups; they are
modelled as natural numbers.  The byte-level RLP serialization is the
given serialization primitive of the repository; wire items are modelled as
the tree `RlpItem` that the rlp crate exposes through `at`, `val_at` and
`iter().count()`.  The sha3 digest and signer recovery are external
cryptographic capabilities and are passed as oracle functions where needed.
-/

namespace Abab

abbrev H256 := Nat
abbrev H520 := Nat
abbrev Address := Nat
abbrev Height := Nat
abbrev View := Nat

/-- message.rs: enum Vote with variants Vote(H256), ViewChange, Proposal(H256). -/
inductive Vote where
  | vote (bh : H256)
  | viewChange
  | proposal (bh : H256)
deriving DecidableEq

/-- message.rs Vote::number: the fixed ordering rank of the vote kind. -/
def Vote.number : Vote → Nat
  | .proposal _ => 0
  | .viewChange => 1
  | .vote _ => 2

/-- message.rs: struct ViewVote with fields vote, height, view.  The height and
view fields are written as plain Nat (the Height and View aliases unfold to
it). -/
structure ViewVote where
  vote : Vote
  height : Nat
  view : Nat
deriving DecidableEq

def ViewVote.new_proposal (height : Height) (view : View) (block_hash : H256) : ViewVote :=
  ⟨.proposal block_hash, height, view⟩

def ViewVote.new_vote (height : Height) (view : View) (block_hash : H256) : ViewVote :=
  ⟨.vote block_hash, height, view⟩

def ViewVote.new_view_change (height : Height) (view : View) : ViewVote :=
  ⟨.viewChange, height, view⟩

/-- mod.rs calls ViewVote::new(height, view) with two arguments; the only
two-field identifier shape in message.rs is the view-change one, so the call is
modelled as new_view_change. -/
def ViewVote.new (height : Height) (view : View) : ViewVote :=
  ViewVote.new_view_change height view

/-- message.rs ViewVote::block_hash. -/
def ViewVote.block_hash : ViewVote → Option H256
  | ⟨.vote bh, _, _⟩ => some bh
  | ⟨.proposal bh, _, _⟩ => some bh
  | ⟨.viewChange, _, _⟩ => none

def ViewVote.is_height (vv : ViewVote) (h : Height) : Bool := vv.height == h

def ViewVote.is_view (vv : ViewVote) (h : Height) (v : View) : Bool :=
  vv.is_height h && vv.view == v

def ViewVote.to_view_change (vv : ViewVote) : ViewVote :=
  ViewVote.new_view_change vv.height vv.view

/-- message.rs impl Ord for ViewVote: height first, then view, then kind rank. -/
def ViewVote.cmp (a m : ViewVote) : Ordering :=
  if a.height ≠ m.height then compare a.height m.height
  else if a.view ≠ m.view then compare a.view m.view
  else compare a.vote.number m.vote.number

/-- Wire items of the given length-prefixed list serialization: an item is an
unsigned scalar or a list of items. -/
inductive RlpItem where
  | nat (n : Nat)
  | list (items : List RlpItem)

def RlpItem.at? : RlpItem → Nat → Option RlpItem
  | .list xs, i => xs.get? i
  | .nat _, _ => none

def RlpItem.asNat? : RlpItem → Option Nat
  | .nat n => some n
  | .list _ => none

def RlpItem.val_at? (r : RlpItem) (i : Nat) : Option Nat :=
  (r.at? i).bind RlpItem.asNat?

def RlpItem.iterCount : RlpItem → Nat
  | .list xs => xs.length
  | .nat _ => 0

/-- message.rs impl Encodable for ViewVote: 4 fields for Proposal (the bool
marker appended as the scalar 1), 3 for Vote, 2 for ViewChange. -/
def ViewVote.rlp_append : ViewVote → RlpItem
  | ⟨.proposal bh, h, v⟩ => .list [.nat h, .nat v, .nat bh, .nat 1]
  | ⟨.vote bh, h, v⟩ => .list [.nat h, .nat v, .nat bh]
  | ⟨.viewChange, h, v⟩ => .list [.nat h, .nat v]

/-- message.rs: struct AbabMessage with a ViewVote and a signature. -/
structure AbabMessage where
  view_vote : ViewVote
  signature : H520
deriving DecidableEq

/-- message.rs impl Encodable for AbabMessage: a 2-list of signature and round. -/
def AbabMessage.rlp_append (m : AbabMessage) : RlpItem :=
  .list [.nat m.signature, m.view_vote.rlp_append]

/-- message.rs impl Decodable for AbabMessage: the payload at index 1 is read as
height, view, and, unless its arity is 2, a block hash at index 2; arity 2
yields ViewChange and anything else yields the Vote kind. -/
def AbabMessage.decode (rlp : RlpItem) : Option AbabMessage := do
  let m ← rlp.at? 1
  let height ← m.val_at? 0
  let view ← m.val_at? 1
  let signature ← rlp.val_at? 0
  if m.iterCount = 2 then
    pure ⟨ViewVote.new_view_change height view, signature⟩
  else do
    let bh ← m.val_at? 2
    pure ⟨ViewVote.new_vote height view bh, signature⟩

def AbabMessage.height (m : AbabMessage) : Height := m.view_vote.height

def AbabMessage.block_hash (m : AbabMessage) : Option H256 := m.view_vote.block_hash

/-- message.rs ViewVote::vote_hash: the digest of the vote-view encoding, with
an absent block hash replaced by the default (all-zero) H256.  The sha3
primitive is external and passed as an oracle. -/
def ViewVote.vote_hash (sha3 : RlpItem → H256) (vv : ViewVote) : H256 :=
  sha3 (ViewVote.rlp_append (ViewVote.new_vote vv.height vv.view (vv.block_hash.getD 0)))

/-- message.rs ViewVote::view_change_hash. -/
def ViewVote.view_change_hash (sha3 : RlpItem → H256) (vv : ViewVote) : H256 :=
  sha3 (ViewVote.rlp_append (ViewVote.new_view_change vv.height vv.view))

/-- The vote ledger of the engine, in admission order.  Its source (the vote
collector) is not under src/; operations on it below are modelled from the
spec. -/
abbrev VoteLedger := List (Address × AbabMessage)

/-- mod.rs engine fields read and written by the consensus transitions.  The
fields lock_change and last_lock are initialized by Abab::new and written by
to_next_height; proposal is the proposal lock used for seal submission.  The
signer and validator set are the external collaborators, reduced to the data
the transitions consult: the signer address and the validator address list. -/
structure EngineState where
  height : Height
  view : View
  last_lock : Nat
  lock_change : Option AbabMessage
  proposal : Option H256
  votes : VoteLedger
  signer_address : Address
  validators : List Address
deriving DecidableEq

/-- mod.rs to_next_height: unconditionally stores height+1, view 0, clears
lock_change and last_lock.  The proposal lock is not written here. -/
def to_next_height (s : EngineState) (height : Height) : EngineState :=
  { s with last_lock := 0, height := height + 1, view := 0, lock_change := none }

/-- Modelled from the spec: ValidatorSet::get is the round-robin lookup into the
current validator list (the validator-set implementation is not under src/). -/
def validators_get (l : List Address) (i : Nat) : Address :=
  l.getD (i % l.length) 0

/-- mod.rs view_primary: the validator at index height + view. -/
def view_primary (s : EngineState) (height : Height) (view : View) : Address :=
  validators_get s.validators (height + view)

/-- mod.rs is_signer_primary. -/
def is_signer_primary (s : EngineState) : Bool :=
  view_primary s s.height s.view == s.signer_address

/-- mod.rs is_signer_next_primary. -/
def is_signer_next_primary (s : EngineState) : Bool :=
  view_primary s s.height (s.view + 1) == s.signer_address

/-- mod.rs is_height: the message is at the current height. -/
def is_height (s : EngineState) (m : AbabMessage) : Bool :=
  m.view_vote.is_height s.height

/-- mod.rs is_above_threshold: n is strictly above two thirds of the validator
count, with integer (floor) division. -/
def is_above_threshold (s : EngineState) (n : Nat) : Bool :=
  decide (n > s.validators.length * 2 / 3)

/-- Modelled from the spec: countAligned, the number of distinct signers the
ledger has recorded for exactly this round identifier (the vote collector
source is not under src/). -/
def count_aligned_votes (ledger : VoteLedger) (vv : ViewVote) : Nat :=
  (((ledger.filter fun e => e.2.view_vote == vv).map fun e => e.1).dedup).length

/-- mod.rs has_enough_votes: the aligned count for the round of the message is
above the supermajority threshold. -/
def has_enough_votes (s : EngineState) (m : AbabMessage) : Bool :=
  is_above_threshold s (count_aligned_votes s.votes m.view_vote)

/-- mod.rs is_new_view: strictly more than one third (floor) of the validator
count of distinct view-change votes for the current height and view. -/
def is_new_view (s : EngineState) : Bool :=
  decide (count_aligned_votes s.votes (ViewVote.new_view_change s.height s.view) >
    s.validators.length * 1 / 3)

/-- mod.rs increment_view: adds n to the view counter.  Defined in the source
but called from nowhere in it. -/
def increment_view (s : EngineState) (n : View) : EngineState :=
  { s with view := s.view + n }

/-- The two signature components of a seal, as returned by the vote collector. -/
structure SealSignatures where
  proposal : H520
  votes : List H520
deriving DecidableEq

/-- Modelled from the spec: the quorum-signature extraction of the vote
collector — the signature recorded for the proposal round together with the
signatures of all votes aligned with the vote round and block hash; none when
no proposal signature was recorded. -/
def seal_signatures (ledger : VoteLedger) (proposal_round vote_round : ViewVote)
    (block_hash : H256) : Option SealSignatures :=
  match ledger.find? (fun e => e.2.view_vote == proposal_round) with
  | none => none
  | some p =>
    some ⟨p.2.signature,
      (ledger.filter fun e =>
        e.2.view_vote == ViewVote.new_vote vote_round.height vote_round.view block_hash).map
        fun e => e.2.signature⟩

/-- The arguments of the submit_seal collaborator call made on commit. -/
structure SealSubmission where
  block_hash : H256
  view : View
  proposal_signature : H520
  vote_signatures : List H520
deriving DecidableEq

/-- The outcome of one round-transition evaluation: the new engine state, the
seal submission if one was made, and whether update_sealing was requested. -/
structure Transition where
  state : EngineState
  submitted : Option SealSubmission
  update_sealing_requested : Bool
deriving DecidableEq

/-- mod.rs handle_valid_message.  A failed match guard falls through to no
action; the ViewChange arm body is empty in the source even when its guard
holds, and no path in the source calls update_sealing. -/
def handle_valid_message (s : EngineState) (m : AbabMessage) : Transition :=
  if is_height s m then
    match m.view_vote.vote with
    | .vote _ =>
      if is_signer_primary s && has_enough_votes s m then
        match s.proposal with
        | some block_hash =>
          let proposal_step := ViewVote.new_proposal s.height s.view block_hash
          let precommit_step := ViewVote.new proposal_step.height proposal_step.view
          match seal_signatures s.votes proposal_step precommit_step block_hash with
          | some sigs =>
            ⟨to_next_height s s.height, some ⟨block_hash, s.view, sigs.proposal, sigs.votes⟩, false⟩
          | none => ⟨s, none, false⟩
        | none => ⟨s, none, false⟩
      else ⟨s, none, false⟩
    | .viewChange => ⟨s, none, false⟩
    | .proposal _ => ⟨s, none, false⟩
  else ⟨s, none, false⟩

/-- The commit guard of the spec sentence for claim C3, stated independently of
the code path: current height, precommit kind, current signer is primary, the
aligned count meets quorum, some proposal hash is locked, and the ledger can
produce the seal signatures for the locked hash. -/
def commit_condition (s : EngineState) (m : AbabMessage) : Bool :=
  is_height s m &&
  (match m.view_vote.vote with | .vote _ => true | _ => false) &&
  (is_signer_primary s && has_enough_votes s m) &&
  (match s.proposal with
   | some bh =>
     (seal_signatures s.votes (ViewVote.new_proposal s.height s.view bh)
       (ViewVote.new s.height s.view) bh).isSome
   | none => false)

/-- Modelled from the spec: the old-or-known admission gate — the ledger
already has an entry carrying exactly this vote (same round identifier and
same signature). -/
def is_old_or_known (ledger : VoteLedger) (m : AbabMessage) : Bool :=
  ledger.any fun e => e.2 == m

/-- Two votes conflict when they agree on height, view and kind rank but differ
in block hash. -/
def conflicts_with (a b : AbabMessage) : Bool :=
  a.view_vote.height == b.view_vote.height && a.view_vote.view == b.view_vote.view &&
  a.view_vote.vote.number == b.view_vote.vote.number &&
  a.view_vote.block_hash != b.view_vote.block_hash

/-- Modelled from the spec: ledger admission (VoteCollector::vote).  A prior
conflicting vote by the same signer is returned and the ledger is kept as it
was (first seen wins); a vote whose round-signer slot is already taken is a
silent duplicate; otherwise the vote is appended. -/
def votes_vote (ledger : VoteLedger) (m : AbabMessage) (signer : Address) :
    Option AbabMessage × VoteLedger :=
  match ledger.find? (fun e => e.1 == signer && conflicts_with e.2 m) with
  | some e => (some e.2, ledger)
  | none =>
    if ledger.any (fun e => e.1 == signer && e.2.view_vote == m.view_vote) then (none, ledger)
    else (none, ledger ++ [(signer, m)])

/-- The message-level error taxonomy of handle_message. -/
inductive EngError where
  | malformed
  | notAuthorized (a : Address)
  | doubleVote (a : Address)
deriving DecidableEq

/-- The outcome of handle_message: the result (none models Ok), the final
engine state, whether the raw message was relayed, and any seal submission. -/
structure HandleResult where
  result : Option EngError
  state : EngineState
  relayed : Bool
  submitted : Option SealSubmission
deriving DecidableEq

/-- mod.rs handle_message.  Signer recovery is the external cryptographic
primitive, passed as the oracle rf from the signature and the signed payload
item to the recovered address. -/
def handle_message (rf : H520 → RlpItem → Address) (s : EngineState) (rlp : RlpItem) :
    HandleResult :=
  match AbabMessage.decode rlp with
  | none => ⟨some .malformed, s, false, none⟩
  | some message =>
    if is_old_or_known s.votes message then ⟨none, s, false, none⟩
    else
      match rlp.at? 1 with
      | none => ⟨some .malformed, s, false, none⟩
      | some payload =>
        let sender := rf message.signature payload
        if s.validators.contains sender then
          match votes_vote s.votes message sender with
          | (some _, _) => ⟨some (.doubleVote sender), s, false, none⟩
          | (none, ledger) =>
            let t := handle_valid_message { s with votes := ledger } message
            ⟨none, t.state, true, t.submitted⟩
        else ⟨some (.notAuthorized sender), s, false, none⟩

/-- A block header, reduced to what the engine reads: the block number, the
seal (a list of raw byte-string slots) and the bare hash.  Bytes are lists of
byte values. -/
structure Header where
  number : Nat
  seal_list : List (List Nat)
  bare_hash : H256
deriving DecidableEq

/-- The big-endian value of a byte string. -/
def beVal : List Nat → Nat
  | [] => 0
  | b :: bs => b * 256 ^ bs.length + beVal bs

/-- Canonical RLP decoding of an unsigned scalar from a raw byte string (the
byte-level scheme is the given serialization primitive): a single byte below
128 is itself, the byte 128 is zero, and a short string of 1 to 55 bytes with
no leading zero and a minimal length carries its big-endian value. -/
def decodeRlpNat? (b : List Nat) : Option Nat :=
  match b with
  | [] => none
  | [x] => if x < 128 then some x else if x = 128 then some 0 else none
  | x :: rest =>
    if 128 < x && x ≤ 183 && rest.length == x - 128 && rest.headD 0 != 0 &&
        (rest.length != 1 || 128 ≤ rest.headD 0)
    then some (beVal rest) else none

/-- Canonical RLP decoding of a 65-byte signature (H520) from a raw byte
string: prefix 184 (a long string), length byte 65, then the 65 bytes. -/
def decodeRlpH520? (b : List Nat) : Option Nat :=
  match b with
  | 184 :: 65 :: rest => if rest.length = 65 then some (beVal rest) else none
  | _ => none

/-- Outcome of code that may panic (an expect in the source), fail with a
decoder error, or succeed. -/
inductive PExcept (α : Type) where
  | panicked
  | error
  | ok (a : α)
deriving DecidableEq

/-- message.rs view(header): seal slot 0 read with expect (panic when the slot
is missing) and then decoded as the consensus view. -/
def view_of (h : Header) : PExcept View :=
  match h.seal_list.get? 0 with
  | none => .panicked
  | some f0 =>
    match decodeRlpNat? f0 with
    | none => .error
    | some v => .ok v

/-- message.rs AbabMessage::new_proposal, signature part: seal slot 1 read with
expect (panic when the slot is missing) and then decoded as an H520. -/
def signature_of (h : Header) : PExcept H520 :=
  match h.seal_list.get? 1 with
  | none => .panicked
  | some f1 =>
    match decodeRlpH520? f1 with
    | none => .error
    | some sg => .ok sg

/-- message.rs AbabMessage::new_proposal: the view field of the struct literal
is evaluated first (so a decode failure of slot 0 surfaces before the expect
on slot 1), then the signature field. -/
def new_proposal (h : Header) : PExcept AbabMessage :=
  match view_of h with
  | .panicked => .panicked
  | .error => .error
  | .ok v =>
    match signature_of h with
    | .panicked => .panicked
    | .error => .error
    | .ok sg => .ok ⟨ViewVote.new_proposal h.number v h.bare_hash, sg⟩

/-- The block-verification error taxonomy used by verify_block_basic. -/
inductive VerifyError where
  | invalidSealArity (expected found : Nat)
  | badSealFieldSize (found : Nat)
deriving DecidableEq

/-- mod.rs Engine::seal_fields for Abab. -/
def seal_fields : Nat := 4

/-- mod.rs verify_block_basic: arity must be exactly seal_fields, and the raw
byte length of seal slot 2 must be at least 1.  The result none models Ok. -/
def verify_block_basic (h : Header) : Option VerifyError :=
  let seal_length := h.seal_list.length
  if seal_length = seal_fields then
    let signatures_len := (h.seal_list.getD 2 []).length
    if 1 ≤ signatures_len then none
    else some (.badSealFieldSize signatures_len)
  else some (.invalidSealArity seal_fields seal_length)

/-! Concrete instances used by the counterexample and divergence theorems. -/

/-- Engine state at height 5: a stale commit for height 1 moves it back. -/
def c2_state : EngineState :=
  { height := 5, view := 3, last_lock := 2, lock_change := none, proposal := some 10,
    votes := [], signer_address := 0, validators := [0] }

/-- Single-validator engine state with proposal lock 55 and a ledger holding
the proposal for 55 and a precommit for a different hash 66. -/
def c3_state : EngineState :=
  { height := 1, view := 0, last_lock := 0, lock_change := none, proposal := some 55,
    votes := [(9, ⟨ViewVote.new_proposal 1 0 55, 71⟩), (9, ⟨ViewVote.new_vote 1 0 66, 72⟩)],
    signer_address := 9, validators := [9] }

/-- A precommit for hash 66, differing from the locked proposal hash 55. -/
def c3_msg : AbabMessage := ⟨ViewVote.new_vote 1 0 66, 72⟩

/-- Three-validator engine state at height 5 view 2 whose signer is the primary
of the next view and whose ledger holds two distinct view-change votes for the
current view. -/
def c5_state : EngineState :=
  { height := 5, view := 2, last_lock := 0, lock_change := none, proposal := none,
    votes := [(3, ⟨ViewVote.new_view_change 5 2, 81⟩), (4, ⟨ViewVote.new_view_change 5 2, 82⟩)],
    signer_address := 5, validators := [3, 4, 5] }

/-- A view-change vote at the current height and view of c5_state. -/
def c5_msg : AbabMessage := ⟨ViewVote.new_view_change 5 2, 82⟩

/-- Single-validator engine state whose ledger holds the first vote of signer 7
for hash 100. -/
def c6_state : EngineState :=
  { height := 1, view := 0, last_lock := 0, lock_change := none, proposal := none,
    votes := [(7, ⟨ViewVote.new_vote 1 0 100, 51⟩)], signer_address := 7, validators := [7] }

/-- The first admitted vote of signer 7, for block hash 100. -/
def c6_m1 : AbabMessage := ⟨ViewVote.new_vote 1 0 100, 51⟩

/-- A conflicting second vote of signer 7: same height, view and kind, block
hash 200. -/
def c6_m2 : AbabMessage := ⟨ViewVote.new_vote 1 0 200, 52⟩

/-- A header whose seal has no fields at all. -/
def c7_header : Header := ⟨0, [], 0⟩

/-- A header with two seal slots whose contents are empty byte strings. -/
def c7w_header : Header := ⟨0, [[], []], 0⟩

/-- A header whose seal has exactly 4 fields but an empty third slot. -/
def c8_header : Header := ⟨1, [[1], [1], [], [1]], 0⟩

/-! Theorems. -/

/-- Claim C1 (counterexample): decoding the canonical encoding of a concrete
Proposal message yields the Vote message with the same fields, not the
Proposal, so decode of encode is not the identity on the Proposal kind. -/
theorem proposal_roundtrip_fails :
    AbabMessage.decode (AbabMessage.rlp_append ⟨ViewVote.new_proposal 1 2 7, 5⟩) =
      some ⟨ViewVote.new_vote 1 2 7, 5⟩ ∧
    some (⟨ViewVote.new_vote 1 2 7, 5⟩ : AbabMessage) ≠
      some (⟨ViewVote.new_proposal 1 2 7, 5⟩ : AbabMessage) :=
  ⟨rfl, by decide⟩

/-- Claim C1 (amended): decode of encode is the identity for the Vote
(Precommit) and ViewChange kinds; the canonical encoding of a Proposal decodes
to the Vote message with the same signature, height, view and block hash. -/
theorem decode_encode_roundtrip :
    ∀ (sig : H520) (h : Height) (v : View) (bh : H256),
      AbabMessage.decode (AbabMessage.rlp_append ⟨ViewVote.new_vote h v bh, sig⟩) =
        some ⟨ViewVote.new_vote h v bh, sig⟩ ∧
      AbabMessage.decode (AbabMessage.rlp_append ⟨ViewVote.new_view_change h v, sig⟩) =
        some ⟨ViewVote.new_view_change h v, sig⟩ ∧
      AbabMessage.decode (AbabMessage.rlp_append ⟨ViewVote.new_proposal h v bh, sig⟩) =
        some ⟨ViewVote.new_vote h v bh, sig⟩ := by
  intro sig h v bh
  exact ⟨rfl, rfl, rfl⟩

/-- Claim C2 (counterexample): to_next_height has no stale-height guard —
applied for the stale height 1 to an engine at height 5 it stores height 2,
moving the height backward. -/
theorem to_next_height_stale_moves_back :
    c2_state.height = 5 ∧ (to_next_height c2_state 1).height = 2 ∧ (2 : Nat) < 5 := by
  decide

/-- Claim C2 (amended): the commit transition is idempotent — re-applying
to_next_height with the same height argument is a no-op, leaving height, view
and the proposal lock unchanged — and it sets height to the argument plus one,
view to 0, clears lock_change and last_lock, and never touches the proposal
lock or the ledger. -/
theorem to_next_height_idempotent :
    ∀ (s : EngineState) (h : Height),
      to_next_height (to_next_height s h) h = to_next_height s h ∧
      (to_next_height s h).height = h + 1 ∧ (to_next_height s h).view = 0 ∧
      (to_next_height s h).lock_change = none ∧ (to_next_height s h).last_lock = 0 ∧
      (to_next_height s h).proposal = s.proposal ∧ (to_next_height s h).votes = s.votes := by
  intro s h
  exact ⟨rfl, rfl, rfl, rfl, rfl, rfl, rfl⟩

/-- Claim C3 (counterexample): handling a precommit for hash 66 while the
locked proposal hash is 55 still submits the seal and advances the height, and
the proposal lock is not cleared: the vote hash is never compared with the
locked hash. -/
theorem commit_without_hash_match :
    (handle_valid_message c3_state c3_msg).submitted.isSome = true ∧
    (handle_valid_message c3_state c3_msg).state.height = 2 ∧
    c3_state.proposal = some 55 ∧ c3_msg.view_vote.block_hash = some 66 ∧
    (55 : H256) ≠ 66 ∧
    (handle_valid_message c3_state c3_msg).state.proposal = some 55 := by
  decide

/-- Claim C3 (amended): the seal is submitted and the commit transition is
performed exactly when the vote is at the current height, of the Vote
(Precommit) kind, the current signer is the primary, the aligned count meets
the supermajority quorum, some proposal hash is locked, and the ledger yields
the seal signatures for the locked hash; the vote block hash itself is never
compared with the locked hash, and the proposal lock is left unchanged in all
cases. -/
theorem handle_valid_message_commit_iff :
    ∀ (s : EngineState) (m : AbabMessage),
      ((handle_valid_message s m).submitted.isSome = commit_condition s m) ∧
      ((handle_valid_message s m).state =
        if commit_condition s m then to_next_height s s.height else s) ∧
      ((handle_valid_message s m).state.proposal = s.proposal) := by
  intro s m
  unfold handle_valid_message
  split
  next h1 =>
    split
    next bh hk =>
      split
      next h2 =>
        split
        next pbh hp =>
          simp only [ViewVote.new_proposal]
          split
          next sigs hs =>
            refine ⟨?_, ?_, ?_⟩ <;>
              simp [commit_condition, h1, hk, h2, hp, hs, to_next_height,
                ViewVote.new_proposal]
          next hs =>
            refine ⟨?_, ?_, ?_⟩ <;>
              simp [commit_condition, h1, hk, h2, hp, hs, ViewVote.new_proposal]
        next hp =>
          refine ⟨?_, ?_, ?_⟩ <;> simp [commit_condition, h1, hk, h2, hp]
      next h2 =>
        refine ⟨?_, ?_, ?_⟩ <;> simp [commit_condition, h1, hk, h2]
    next hk =>
      refine ⟨?_, ?_, ?_⟩ <;> simp [commit_condition, h1, hk]
    next bh hk =>
      refine ⟨?_, ?_, ?_⟩ <;> simp [commit_condition, h1, hk]
  next h1 =>
    refine ⟨?_, ?_, ?_⟩ <;> simp [commit_condition, h1]

/-- Claim C4: both quorum comparisons are strict — the commit quorum holds
exactly when the count strictly exceeds the floor of two thirds of the
validator count, and the view-change liveness trigger holds exactly when the
distinct view-change votes for the current height and view strictly exceed the
floor of one third of the validator count. -/
theorem thresholds_strict :
    ∀ (s : EngineState) (n : Nat),
      (is_above_threshold s n = true ↔ n > 2 * s.validators.length / 3) ∧
      (is_new_view s = true ↔
        count_aligned_votes s.votes (ViewVote.new_view_change s.height s.view) >
          s.validators.length / 3) := by
  intro s n
  constructor
  · rw [is_above_threshold, decide_eq_true_iff, Nat.mul_comm]
  · rw [is_new_view, decide_eq_true_iff, Nat.mul_one]

/-- Claim C5 (divergence witness): in a state where this node is the primary
of the next view and the view-change liveness threshold is met, handling a
current view-change vote leaves the state completely unchanged — the view is
not advanced (increment_view, which would advance it to 3, is dead code) and
no new proposal attempt is requested. -/
theorem view_change_threshold_met_noop :
    is_height c5_state c5_msg = true ∧
    c5_msg.view_vote.vote = Vote.viewChange ∧
    is_signer_next_primary c5_state = true ∧
    is_new_view c5_state = true ∧
    handle_valid_message c5_state c5_msg = ⟨c5_state, none, false⟩ ∧
    (increment_view c5_state 1).view = 3 ∧
    (handle_valid_message c5_state c5_msg).state.view = 2 := by
  decide

/-- Claim C6: once a first vote by a signer is in the ledger, handling a
second vote by the same signer for the same height, view and kind rank but a
different block hash fails with DoubleVote for that signer, leaves the engine
state (and hence the stored first vote) unchanged, and does not relay the
conflicting message. -/
theorem double_vote_detected
    (rf : H520 → RlpItem → Address) (s : EngineState) (m1 m2 : AbabMessage) (signer : Address)
    (hdec : AbabMessage.decode (AbabMessage.rlp_append m2) = some m2)
    (hnew : is_old_or_known s.votes m2 = false)
    (hrec : rf m2.signature m2.view_vote.rlp_append = signer)
    (hval : s.validators.contains signer = true)
    (hmem : (signer, m1) ∈ s.votes)
    (hh : m1.view_vote.height = m2.view_vote.height)
    (hv : m1.view_vote.view = m2.view_vote.view)
    (hk : m1.view_vote.vote.number = m2.view_vote.vote.number)
    (hbh : m1.view_vote.block_hash ≠ m2.view_vote.block_hash) :
    handle_message rf s (AbabMessage.rlp_append m2) =
      ⟨some (.doubleVote signer), s, false, none⟩ := by
  have hat : (AbabMessage.rlp_append m2).at? 1 = some m2.view_vote.rlp_append := rfl
  have hpred : ((signer, m1).1 == signer && conflicts_with (signer, m1).2 m2) = true := by
    simp [conflicts_with, hh, hv, hk, bne_iff_ne, hbh]
  obtain ⟨e, he⟩ :
      ∃ e, s.votes.find? (fun e => e.1 == signer && conflicts_with e.2 m2) = some e := by
    cases hc : s.votes.find? (fun e => e.1 == signer && conflicts_with e.2 m2) with
    | some e => exact ⟨e, rfl⟩
    | none =>
      rw [List.find?_eq_none] at hc
      exact absurd hpred (by simpa using hc (signer, m1) hmem)
  have hmem2 : signer ∈ s.validators := by simpa using hval
  simp [handle_message, votes_vote, hdec, hnew, hat, hrec, hval, hmem2, he]

/-- Claim C6 (witness): the general double-vote theorem applied to the
concrete one-validator state where signer 7 first voted for hash 100 and then
votes for hash 200. -/
theorem double_vote_detected_witness :
    handle_message (fun _ _ => 7) c6_state (AbabMessage.rlp_append c6_m2) =
      ⟨some (.doubleVote 7), c6_state, false, none⟩ :=
  double_vote_detected (fun _ _ => 7) c6_state c6_m1 c6_m2 7 rfl (by decide) rfl (by decide)
    (by decide) rfl rfl rfl (by decide)

/-- Claim C7 (counterexample): constructing the Proposal vote from a header
whose seal has no fields panics (an expect in the source), rather than taking
the decode-error branch. -/
theorem new_proposal_empty_seal_panics :
    new_proposal c7_header = PExcept.panicked ∧
    new_proposal c7_header ≠ PExcept.error := by
  decide

/-- Claim C7 (amended): for headers whose seal has at least the two read slots,
new_proposal never panics, and malformed contents of the view slot yield the
decode-error branch; for seals with fewer than two slots the code panics,
relying on prior basic verification of the arity. -/
theorem new_proposal_no_panic_two_fields :
    ∀ (h : Header), 2 ≤ h.seal_list.length →
      new_proposal h ≠ PExcept.panicked ∧
      (∀ f0, h.seal_list.get? 0 = some f0 → decodeRlpNat? f0 = none →
        new_proposal h = PExcept.error) := by
  intro h hlen
  obtain ⟨f0, hf0⟩ : ∃ a, h.seal_list.get? 0 = some a := by
    cases hc : h.seal_list.get? 0 with
    | some a => exact ⟨a, rfl⟩
    | none => rw [List.get?_eq_none] at hc; omega
  obtain ⟨f1, hf1⟩ : ∃ a, h.seal_list.get? 1 = some a := by
    cases hc : h.seal_list.get? 1 with
    | some a => exact ⟨a, rfl⟩
    | none => rw [List.get?_eq_none] at hc; omega
  constructor
  · unfold new_proposal view_of signature_of
    rw [hf0, hf1]
    cases hd0 : decodeRlpNat? f0 <;> cases hd1 : decodeRlpH520? f1 <;> simp [hd0, hd1]
  · intro f0x hf0x hmal
    unfold new_proposal view_of
    rw [hf0x]
    simp [hmal]

/-- Claim C7 (witness): a header with two empty seal slots does not panic and
takes the error branch. -/
theorem new_proposal_no_panic_two_fields_witness :
    2 ≤ c7w_header.seal_list.length ∧ new_proposal c7w_header ≠ PExcept.panicked ∧
      new_proposal c7w_header = PExcept.error :=
  ⟨by decide, (new_proposal_no_panic_two_fields c7w_header (by decide)).1,
    (new_proposal_no_panic_two_fields c7w_header (by decide)).2 [] rfl rfl⟩

/-- Claim C8 (counterexample): a header whose seal has exactly 4 fields but an
empty third slot is rejected with BadSealFieldSize, so basic verification does
not succeed for every 4-field seal. -/
theorem arity_four_empty_sigs_rejected :
    c8_header.seal_list.length = 4 ∧
    verify_block_basic c8_header = some (.badSealFieldSize 0) ∧
    verify_block_basic c8_header ≠ none := by
  decide

/-- Claim C8 (amended): basic verification fails with InvalidSealArity exactly
when the seal does not have 4 fields; for exactly 4 fields it succeeds exactly
when the third slot is non-empty, and otherwise fails with BadSealFieldSize. -/
theorem verify_block_basic_characterization :
    ∀ (h : Header),
      (verify_block_basic h = none ↔
        (h.seal_list.length = 4 ∧ 1 ≤ (h.seal_list.getD 2 []).length)) ∧
      (verify_block_basic h = some (.invalidSealArity 4 h.seal_list.length) ↔
        h.seal_list.length ≠ 4) ∧
      (verify_block_basic h = some (.badSealFieldSize 0) ↔
        (h.seal_list.length = 4 ∧ (h.seal_list.getD 2 []).length = 0)) := by
  intro h
  have hkey :
      verify_block_basic h =
        (if h.seal_list.length = 4 then
          (if 1 ≤ (h.seal_list.getD 2 []).length then none
           else some (.badSealFieldSize (h.seal_list.getD 2 []).length))
         else some (.invalidSealArity 4 h.seal_list.length)) := rfl
  by_cases h4 : h.seal_list.length = 4
  · by_cases hs : 1 ≤ (h.seal_list.getD 2 []).length
    · rw [hkey, if_pos h4, if_pos hs]
      refine ⟨⟨fun _ => ⟨h4, hs⟩, fun _ => rfl⟩,
        ⟨fun hc => Option.noConfusion hc, fun hne => absurd h4 hne⟩,
        ⟨fun hc => Option.noConfusion hc, fun hx => absurd hx.2 (by omega)⟩⟩
    · rw [hkey, if_pos h4, if_neg hs]
      refine ⟨⟨fun hc => Option.noConfusion hc, fun hx => absurd hx.2 hs⟩,
        ⟨fun hc => by simp at hc, fun hne => absurd h4 hne⟩,
        ⟨fun hc => ⟨h4, by simpa using hc⟩, fun hx => by rw [hx.2]⟩⟩
  · rw [hkey, if_neg h4]
    refine ⟨⟨fun hc => Option.noConfusion hc, fun hx => absurd hx.1 h4⟩,
      ⟨fun _ => h4, fun _ => rfl⟩,
      ⟨fun hc => by simp at hc, fun hx => absurd hx.1 h4⟩⟩

/-- The ViewVote comparison put in strict lexicographic form. -/
theorem cmp_lt_char (a b : ViewVote) :
    ViewVote.cmp a b = .lt ↔
      (a.height < b.height ∨ (a.height = b.height ∧ (a.view < b.view ∨
        (a.view = b.view ∧ a.vote.number < b.vote.number)))) := by
  unfold ViewVote.cmp
  by_cases hh : a.height = b.height
  · by_cases hv : a.view = b.view
    · simp [hh, hv, Nat.compare_eq_lt]
    · simp [hh, hv, Nat.compare_eq_lt]
  · simp [hh, Nat.compare_eq_lt]

/-- The ViewVote comparison yields eq exactly on equal field triples. -/
theorem cmp_eq_char (a b : ViewVote) :
    ViewVote.cmp a b = .eq ↔
      (a.height = b.height ∧ a.view = b.view ∧ a.vote.number = b.vote.number) := by
  unfold ViewVote.cmp
  by_cases hh : a.height = b.height
  · by_cases hv : a.view = b.view
    · simp [hh, hv, Nat.compare_eq_eq]
    · simp [hh, hv, Nat.compare_eq_eq]
  · simp [hh, Nat.compare_eq_eq]

/-- Lexicographic strict order on triples of naturals is asymmetric. -/
theorem lex3_asymm (x1 x2 x3 y1 y2 y3 : Nat)
    (h : x1 < y1 ∨ (x1 = y1 ∧ (x2 < y2 ∨ (x2 = y2 ∧ x3 < y3))))
    (h2 : y1 < x1 ∨ (y1 = x1 ∧ (y2 < x2 ∨ (y2 = x2 ∧ y3 < x3)))) : False := by
  rcases h with h | ⟨e1, h | ⟨e2, h⟩⟩ <;> rcases h2 with h2 | ⟨e1x, h2 | ⟨e2x, h2⟩⟩ <;> omega

/-- Lexicographic trichotomy on triples of naturals. -/
theorem lex3_trichotomy (x1 x2 x3 y1 y2 y3 : Nat) :
    (x1 < y1 ∨ (x1 = y1 ∧ (x2 < y2 ∨ (x2 = y2 ∧ x3 < y3)))) ∨
    (x1 = y1 ∧ x2 = y2 ∧ x3 = y3) ∨
    (y1 < x1 ∨ (y1 = x1 ∧ (y2 < x2 ∨ (y2 = x2 ∧ y3 < x3)))) := by
  by_cases e1 : x1 = y1
  · by_cases e2 : x2 = y2
    · by_cases e3 : x3 = y3
      · exact Or.inr (Or.inl ⟨e1, e2, e3⟩)
      · rcases Nat.lt_or_ge x3 y3 with hl | hl
        · exact Or.inl (Or.inr ⟨e1, Or.inr ⟨e2, hl⟩⟩)
        · exact Or.inr (Or.inr (Or.inr ⟨e1.symm, Or.inr ⟨e2.symm, by omega⟩⟩))
    · rcases Nat.lt_or_ge x2 y2 with hl | hl
      · exact Or.inl (Or.inr ⟨e1, Or.inl hl⟩)
      · exact Or.inr (Or.inr (Or.inr ⟨e1.symm, Or.inl (by omega)⟩))
  · rcases Nat.lt_or_ge x1 y1 with hl | hl
    · exact Or.inl (Or.inl hl)
    · exact Or.inr (Or.inr (Or.inl (by omega)))

/-- The ViewVote comparison is antisymmetric: gt one way is lt the other. -/
theorem cmp_gt_char (a b : ViewVote) :
    ViewVote.cmp a b = .gt ↔ ViewVote.cmp b a = .lt := by
  constructor
  · intro hgt
    rcases lex3_trichotomy a.height a.view a.vote.number b.height b.view b.vote.number with
      hlex | heqf | hlex
    · exact Ordering.noConfusion (((cmp_lt_char a b).mpr hlex).symm.trans hgt)
    · exact Ordering.noConfusion (((cmp_eq_char a b).mpr heqf).symm.trans hgt)
    · exact (cmp_lt_char b a).mpr hlex
  · intro hlt
    have hlex := (cmp_lt_char b a).mp hlt
    cases hc : ViewVote.cmp a b with
    | lt =>
      exact (lex3_asymm _ _ _ _ _ _ ((cmp_lt_char a b).mp hc) hlex).elim
    | eq =>
      have h2 := (cmp_eq_char a b).mp hc
      exact absurd hlex (by
        obtain ⟨e1, e2, e3⟩ := h2
        intro hcontr
        rcases hcontr with hx | ⟨f1, hx | ⟨f2, hx⟩⟩ <;> omega)
    | gt => rfl

/-- Claim C9: the round-identifier comparison is a total comparison deciding by
height, then view, then kind rank with ranks Proposal 0, ViewChange 1,
Precommit 2, and two identifiers compare equal exactly when height, view and
kind rank coincide. -/
theorem viewvote_cmp_total_order :
    ∀ (a b : ViewVote),
      (ViewVote.cmp a b = .lt ∨ ViewVote.cmp a b = .eq ∨ ViewVote.cmp a b = .gt) ∧
      (ViewVote.cmp a b = .eq ↔
        (a.height = b.height ∧ a.view = b.view ∧ a.vote.number = b.vote.number)) ∧
      (ViewVote.cmp a b = .lt ↔
        (a.height < b.height ∨ (a.height = b.height ∧ (a.view < b.view ∨
          (a.view = b.view ∧ a.vote.number < b.vote.number))))) ∧
      (ViewVote.cmp a b = .gt ↔ ViewVote.cmp b a = .lt) ∧
      (∀ bh, (Vote.proposal bh).number = 0) ∧ Vote.viewChange.number = 1 ∧
      (∀ bh, (Vote.vote bh).number = 2) := by
  intro a b
  refine ⟨?_, cmp_eq_char a b, cmp_lt_char a b, cmp_gt_char a b,
    fun _ => rfl, rfl, fun _ => rfl⟩
  cases ViewVote.cmp a b
  · exact Or.inl rfl
  · exact Or.inr (Or.inl rfl)
  · exact Or.inr (Or.inr rfl)

/-- Claim C10: vote_hash is total on every round identifier — for a ViewChange
identifier the absent block hash is replaced by the all-zero hash, so its
vote-view digest equals the digest of the Vote identifier carrying the zero
hash. -/
theorem vote_hash_total_on_view_change :
    ∀ (sha3 : RlpItem → H256) (h : Height) (v : View),
      ViewVote.vote_hash sha3 (ViewVote.new_view_change h v) =
        ViewVote.vote_hash sha3 (ViewVote.new_vote h v 0) ∧
      ViewVote.vote_hash sha3 (ViewVote.new_view_change h v) =
        sha3 (ViewVote.rlp_append (ViewVote.new_vote h v 0)) := by
  intro sha3 h v
  exact ⟨rfl, rfl⟩

end Abab
